import Mathlib

/-! Formal model of the TaskTimer periodic task scheduler (src/TaskTimer.ts).

The scheduler code is embedded shallowly: the private `_` record of the
`TaskTimer` class becomes the `Timer` structure (plus `timerOn`, which models
whether the underlying `setInterval` handle `_timer` is active), and each
method becomes a pure function from `Timer` to `Timer` together with the list
of events it emits.  `Date.now()` becomes an explicit `now : Nat` argument.
Task callbacks are treated as opaque work that does not mutate the scheduler,
matching the side-effect contract of the specification. -/

namespace TaskTimer

/-- States of the timer, mirroring the `TaskTimer.State` enumeration. -/
inductive State
  | idle
  | running
  | paused
  | stopped
deriving Repr, DecidableEq

/-- Modelled from the spec: the Task class (its source file is not under src/;
only `TaskTimer.ts` is, so the fields follow spec section 3).  `totalRuns = 0`
means unbounded; `stopDate = none` means no expiry date. -/
structure Task where
  name : String
  tickInterval : Nat
  totalRuns : Nat
  stopDate : Option Nat
  currentRuns : Nat
  enabled : Bool
  completed : Bool
deriving Repr, DecidableEq

instance : Inhabited Task :=
  ⟨{ name := "", tickInterval := 1, totalRuns := 0, stopDate := none,
     currentRuns := 0, enabled := true, completed := false }⟩

/-- Modelled from the spec: the execution bookkeeping of `Task.execute`
(spec section 4.1): increment `currentRuns`, then set `completed` once
`totalRuns` is reached or `stopDate` has passed. -/
def Task.execute (now : Nat) (t : Task) : Task :=
  let cr := t.currentRuns + 1
  { t with
    currentRuns := cr
    completed :=
      (t.totalRuns != 0 && decide (t.totalRuns ≤ cr)) ||
      (match t.stopDate with
       | some d => decide (d ≤ now)
       | none => false) }

/-- Modelled from the spec: the part of the run decision that the task checks
itself (spec section 4.1, also the comment above the `_run` call in `_tick`):
the task body runs only when `enabled` and not yet `completed`. -/
def Task.runnable (t : Task) : Bool :=
  t.enabled && !t.completed

/-- Event envelope content: a `TaskTimer.EventType` together with the task
payload for task-scoped events. -/
inductive Event
  | tick
  | started
  | resumed
  | paused
  | stopped
  | reset
  | task (t : Task)
  | taskAdded (t : Task)
  | taskRemoved (t : Task)
  | taskCompleted (t : Task)
  | completed
deriving Repr, DecidableEq

/-- Default option values, mirroring `DEFAULT_TIMER_OPTIONS.interval`. -/
def DEFAULT_TIMER_OPTIONS_interval : Nat := 1000

/-- Default option values, mirroring `DEFAULT_TIMER_OPTIONS.stopOnCompleted`. -/
def DEFAULT_TIMER_OPTIONS_stopOnCompleted : Bool := false

/-- State of a `TaskTimer` instance: the private `_` record of `TaskTimer.ts`
plus `timerOn`, which models whether the underlying clock handle (`_timer`)
is active.  The registry `tasks` is kept in insertion order with the name
stored inside each task (JS string-keyed objects preserve insertion order). -/
structure Timer where
  interval : Nat
  stopOnCompleted : Bool
  state : State
  tasks : List Task
  tickCount : Nat
  runCount : Nat
  startTime : Nat
  stopTime : Nat
  completedCount : Nat
  timerOn : Bool
deriving Repr, DecidableEq

/-- Mirrors the `taskCount` getter: the number of registered tasks. -/
def Timer.taskCount (tm : Timer) : Nat :=
  tm.tasks.length

/-- Mirrors `get(name)`: the registered task with the given name, if any. -/
def Timer.get (tm : Timer) (name : String) : Option Task :=
  tm.tasks.find? (fun t => t.name == name)

/-- Mirrors the private `_stop()`: clear the underlying clock handle. -/
def Timer._stop (tm : Timer) : Timer :=
  { tm with timerOn := false }

/-- Mirrors the private `_run()`: (re)install the underlying clock handle. -/
def Timer._run (tm : Timer) : Timer :=
  { tm with timerOn := true }

/-- Mirrors the private `_reset()`: stop the clock and reinitialize every field
except the options record. -/
def Timer._reset (tm : Timer) : Timer :=
  { interval := tm.interval
    stopOnCompleted := tm.stopOnCompleted
    state := .idle
    tasks := []
    tickCount := 0
    runCount := 0
    startTime := 0
    stopTime := 0
    completedCount := 0
    timerOn := false }

/-- Mirrors `start()`; `now` stands for `Date.now()`. -/
def Timer.start (now : Nat) (tm : Timer) : Timer × List Event :=
  let tm1 := tm._stop
  let tm2 := { tm1 with startTime := now, stopTime := 0, tickCount := 0, runCount := 0 }
  let tm3 := tm2._run
  ({ tm3 with state := .running }, [Event.started])

/-- Mirrors `pause()`: a no-op unless the timer is running. -/
def Timer.pause (tm : Timer) : Timer × List Event :=
  if tm.state ≠ State.running then (tm, [])
  else ({ tm._stop with state := .paused }, [Event.paused])

/-- Mirrors `resume()`: a no-op unless the timer is paused. -/
def Timer.resume (tm : Timer) : Timer × List Event :=
  if tm.state ≠ State.paused then (tm, [])
  else ({ tm._run with state := .running }, [Event.resumed])

/-- Mirrors `stop()`: a no-op unless the timer is running. -/
def Timer.stop (now : Nat) (tm : Timer) : Timer × List Event :=
  if tm.state ≠ State.running then (tm, [])
  else ({ tm._stop with stopTime := now, state := .stopped }, [Event.stopped])

/-- Mirrors `reset()`: reinitialize and emit the reset event (task removals are
silent, so no taskRemoved events appear). -/
def Timer.reset (tm : Timer) : Timer × List Event :=
  (tm._reset, [Event.reset])

/-- Mirrors the `interval` setter: a falsy value (`0` in this model) falls back
to the default of 1000 milliseconds. -/
def Timer.setInterval (tm : Timer) (value : Nat) : Timer :=
  { tm with interval := if value = 0 then DEFAULT_TIMER_OPTIONS_interval else value }

/-- Argument accepted by `remove`: either a task name or a task instance. -/
inductive RemoveArg
  | byName (name : String)
  | byTask (t : Task)
deriving Repr, DecidableEq

/-- Mirrors the name resolution at the top of `remove`. -/
def RemoveArg.resolvedName : RemoveArg → String
  | .byName n => n
  | .byTask t => t.name

/-- Outcome of a fallible registry operation: the error message if it threw,
the timer state after the call, and the events it emitted. -/
structure Outcome where
  error : Option String
  timer : Timer
  events : List Event
deriving Repr, DecidableEq

/-- Mirrors `remove(task)`: an empty or unknown name throws; removing a
completed task first decrements `completedCount`, guarded so the counter
cannot go negative; then the task is deleted and taskRemoved is emitted. -/
def Timer.remove (tm : Timer) (arg : RemoveArg) : Outcome :=
  let name := arg.resolvedName
  match name == "", tm.get name with
  | false, some t =>
      let cc := if t.completed && decide (0 < tm.completedCount)
                then tm.completedCount - 1 else tm.completedCount
      { error := none
        timer := { tm with
                   tasks := tm.tasks.eraseP (fun u => u.name == name)
                   completedCount := cc }
        events := [Event.taskRemoved t] }
  | _, _ =>
      { error := some "No tasks exist with the given name.", timer := tm, events := [] }

/-- Task options record (`ITaskOptions`), without the callback itself (taken as
opaque).  A `name` of `none` or `some ""` counts as absent, because the source
tests `!options.name` and the empty string is falsy. -/
structure TaskOptions where
  name : Option String
  tickInterval : Nat
  totalRuns : Nat
  stopDate : Option Nat
  enabled : Bool
deriving Repr, DecidableEq

/-- Modelled from the spec: construction of a `Task` from an options record
(the Task class source is not under src/).  `tickInterval` defaults to 1 when
absent or falsy, `currentRuns` starts at 0, `completed` starts false, and
`enabled` defaults to true (carried inside the options record here). -/
def Task.ofOptions (o : TaskOptions) : Task :=
  { name := o.name.getD ""
    tickInterval := if o.tickInterval = 0 then 1 else o.tickInterval
    totalRuns := o.totalRuns
    stopDate := o.stopDate
    currentRuns := 0
    enabled := o.enabled
    completed := false }

/-- Input shapes accepted by `add` for a single task: a bare callback function
(opaque here), an options record, or a prebuilt `Task` instance. -/
inductive AddInput
  | callback
  | options (o : TaskOptions)
  | taskInstance (t : Task)
deriving Repr, DecidableEq

/-- Name carried by an `add` input before auto-generation; the empty string
stands for an absent (falsy) name. -/
def AddInput.rawName : AddInput → String
  | .callback => ""
  | .options o => o.name.getD ""
  | .taskInstance t => t.name

/-- Helper of `_getNewTaskName`: try the candidate names `task-(num+1)`,
`task-(num+2)`, and so on until one is unused, with explicit fuel standing in
for the unbounded while loop. -/
def getNewTaskNameAux (tm : Timer) : Nat → Nat → String
  | 0, num => "task-" ++ Nat.repr (num + 1)
  | fuel + 1, num =>
      let name := "task-" ++ Nat.repr (num + 1)
      if (tm.get name).isSome then getNewTaskNameAux tm fuel (num + 1) else name

/-- Mirrors `_getNewTaskName()`: candidate numbers start right above the
current task count and increase until the name is unused.  Scanning
`taskCount + 1` candidates always suffices, which is what the fuel encodes. -/
def Timer._getNewTaskName (tm : Timer) : String :=
  getNewTaskNameAux tm (tm.taskCount + 1) tm.taskCount

/-- Name the `_add` duplicate check runs against: the explicit name when one is
present, otherwise the auto-generated one. -/
def Timer.resolvedAddName (tm : Timer) (input : AddInput) : String :=
  if input.rawName == "" then tm._getNewTaskName else input.rawName

/-- Mirrors the private `_add(options)`: wrap a bare callback, auto-name inputs
without a name, throw on a duplicate name before any mutation, otherwise
register the task and emit taskAdded. -/
def Timer._add (tm : Timer) (input : AddInput) : Outcome :=
  let name := tm.resolvedAddName input
  if (tm.get name).isSome then
    { error := some "A task with the given name already exists.", timer := tm, events := [] }
  else
    let task :=
      match input with
      | .callback =>
          Task.ofOptions
            { name := some name, tickInterval := 0, totalRuns := 0,
              stopDate := none, enabled := true }
      | .options o => Task.ofOptions { o with name := some name }
      | .taskInstance t => { t with name := name }
    { error := none
      timer := { tm with tasks := tm.tasks ++ [task] }
      events := [Event.taskAdded task] }

/-- Mirrors the JS test `this.tickCount % task.tickInterval === 0` in `_tick`;
when `tickInterval` is 0 the JS expression is `NaN` and the test is false. -/
def tickAligned (tc ti : Nat) : Bool :=
  ti != 0 && tc % ti == 0

/-- Accumulator for one tick pass: the tasks already visited (updated, in
order) together with the live scheduler fields that the per-task completion
callback in `_tick` reads and writes. -/
structure PassState where
  visited : List Task
  runCount : Nat
  completedCount : Nat
  state : State
  timerOn : Bool
  stopTime : Nat
  events : List Event
deriving Repr, DecidableEq

/-- Application of `stop()` to the live fields during a tick pass: the state
guard and the mutations of `stop()` restricted to the fields it touches. -/
def PassState.applyStop (now : Nat) (st : PassState) : PassState :=
  if st.state ≠ State.running then st
  else { st with timerOn := false, stopTime := now, state := .stopped,
                 events := st.events ++ [Event.stopped] }

/-- Mirrors one iteration of the `for` loop in `_tick` for a single task: the
tick-alignment check, the task body run (`Task._run`, which itself skips
disabled or completed tasks), and the completion callback that bumps
`runCount`, emits the task event, counts and announces a fresh completion,
and, when `completedCount` reaches the live `taskCount` `n`, emits the
aggregate completed event and invokes `stop()` if `stopOnCompleted` is set. -/
def passStep (now tc n : Nat) (sOC : Bool) (st : PassState) (t : Task) : PassState :=
  if tickAligned tc t.tickInterval && t.runnable then
    let t2 := t.execute now
    let st1 := { st with visited := st.visited ++ [t2],
                         runCount := st.runCount + 1,
                         events := st.events ++ [Event.task t2] }
    let st2 := if t2.completed
               then { st1 with completedCount := st1.completedCount + 1,
                               events := st1.events ++ [Event.taskCompleted t2] }
               else st1
    if st2.completedCount == n then
      let st3 := { st2 with events := st2.events ++ [Event.completed] }
      if sOC then st3.applyStop now else st3
    else st2
  else { st with visited := st.visited ++ [t] }

/-- Mirrors `_tick()`: run the pass over every registered task, then increment
`tickCount` and emit the tick event. -/
def Timer._tick (now : Nat) (tm : Timer) : Timer × List Event :=
  let init : PassState :=
    { visited := [], runCount := tm.runCount, completedCount := tm.completedCount,
      state := tm.state, timerOn := tm.timerOn, stopTime := tm.stopTime, events := [] }
  let fin := tm.tasks.foldl (passStep now tm.tickCount tm.taskCount tm.stopOnCompleted) init
  ({ tm with tasks := fin.visited, runCount := fin.runCount,
             completedCount := fin.completedCount, state := fin.state,
             timerOn := fin.timerOn, stopTime := fin.stopTime,
             tickCount := tm.tickCount + 1 },
   fin.events ++ [Event.tick])

/-- Mirrors the `setInterval` callback installed by `_run()`: run `_tick`, then
re-assert the RUNNING state.  A wakeup can only fire while `timerOn` holds. -/
def Timer.wakeup (now : Nat) (tm : Timer) : Timer × List Event :=
  let r := tm._tick now
  ({ r.1 with state := .running }, r.2)

/-- Update applied to one task by one full tick pass of `_tick`. -/
def visitTask (now tc : Nat) (t : Task) : Task :=
  if tickAligned tc t.tickInterval && t.runnable then t.execute now else t

/-- Registry bookkeeping invariant of the spec: `completedCount` equals the
number of registered tasks whose completed flag is set. -/
def Timer.Inv (tm : Timer) : Prop :=
  tm.completedCount = tm.tasks.countP (fun t => t.completed)

/-- Aggregate-completion condition: at least one task is registered and every
registered task is completed. -/
def allDoneB (tm : Timer) : Bool :=
  tm.taskCount != 0 && tm.tasks.all (fun t => t.completed)

/-- Tells whether one tick pass turns the given task from uncompleted to
completed. -/
def newlyCompleted (now tc : Nat) (t : Task) : Bool :=
  (visitTask now tc t).completed && !t.completed

instance (tm : Timer) : Decidable tm.Inv :=
  inferInstanceAs (Decidable (tm.completedCount = tm.tasks.countP (fun t => t.completed)))

/-- Fresh timer with default options, as produced by the constructor. -/
def tmBase : Timer :=
  { interval := DEFAULT_TIMER_OPTIONS_interval
    stopOnCompleted := DEFAULT_TIMER_OPTIONS_stopOnCompleted
    state := .idle, tasks := [], tickCount := 0, runCount := 0,
    startTime := 0, stopTime := 0, completedCount := 0, timerOn := false }

/-- Single-run task used in the concrete scenarios. -/
def taskT1 : Task :=
  { name := "t1", tickInterval := 1, totalRuns := 1, stopDate := none,
    currentRuns := 0, enabled := true, completed := false }

/-- State of `taskT1` after its one and only execution. -/
def taskT1done : Task :=
  { name := "t1", tickInterval := 1, totalRuns := 1, stopDate := none,
    currentRuns := 1, enabled := true, completed := true }

/-- Started timer with `stopOnCompleted` set and `taskT1` as its only task. -/
def tmSOC : Timer :=
  { tmBase with stopOnCompleted := true, state := .running,
                tasks := [taskT1], timerOn := true }

/-- Unbounded task without a `task-N` pattern name. -/
def taskFoo : Task :=
  { name := "foo", tickInterval := 1, totalRuns := 0, stopDate := none,
    currentRuns := 0, enabled := true, completed := false }

/-- Idle timer holding the single task `taskFoo`. -/
def tmFoo : Timer :=
  { tmBase with tasks := [taskFoo] }

/-- Completed single-run task named a. -/
def taskA : Task :=
  { name := "a", tickInterval := 1, totalRuns := 1, stopDate := none,
    currentRuns := 1, enabled := true, completed := true }

/-- Unbounded, never-completing task named b. -/
def taskB : Task :=
  { name := "b", tickInterval := 1, totalRuns := 0, stopDate := none,
    currentRuns := 3, enabled := true, completed := false }

/-- Running timer in which `taskA` is completed and `taskB` is not. -/
def tmAB : Timer :=
  { tmBase with state := .running, timerOn := true,
                tasks := [taskA, taskB], completedCount := 1 }

/-! Helper lemmas about single tasks and single pass steps. -/

/-- Execution always bumps the run counter. -/
theorem Task.execute_currentRuns (now : Nat) (t : Task) :
    (t.execute now).currentRuns = t.currentRuns + 1 := rfl

/-- Execution changes the task record. -/
theorem Task.execute_ne (now : Nat) (t : Task) : t.execute now ≠ t := by
  intro h
  have hc := congrArg Task.currentRuns h
  rw [Task.execute_currentRuns] at hc
  omega

/-- Completed tasks are untouched by a tick pass. -/
theorem visitTask_of_completed (now tc : Nat) (t : Task) (h : t.completed = true) :
    visitTask now tc t = t := by
  unfold visitTask
  simp [Task.runnable, h]

/-- A pass step appends exactly the visited task in its updated form. -/
theorem passStep_visited (now tc n : Nat) (sOC : Bool) (st : PassState) (t : Task) :
    (passStep now tc n sOC st t).visited = st.visited ++ [visitTask now tc t] := by
  unfold passStep visitTask PassState.applyStop
  split
  case isTrue h =>
    simp only [h]
    repeat' split
    all_goals simp_all
  case isFalse h =>
    simp [h]

/-- A pass step raises `completedCount` exactly when the visited task newly
completes. -/
theorem passStep_completedCount (now tc n : Nat) (sOC : Bool) (st : PassState) (t : Task) :
    (passStep now tc n sOC st t).completedCount
      = st.completedCount + (if newlyCompleted now tc t then 1 else 0) := by
  unfold passStep newlyCompleted visitTask PassState.applyStop
  split
  case isTrue h =>
    have hnc : t.completed = false := by
      rcases Bool.and_eq_true .. |>.mp h with ⟨-, hr⟩
      unfold Task.runnable at hr
      rcases Bool.and_eq_true .. |>.mp hr with ⟨-, hb⟩
      simpa using hb
    simp only [h, hnc]
    repeat' split
    all_goals simp_all
  case isFalse h =>
    simp [h]

/-! Claim theorems: configuration and frame claims. -/

/-- C9: setting `interval` to the falsy value 0 stores the default 1000
milliseconds instead, while any nonzero value is stored unchanged. -/
theorem interval_setter_default_fallback (tm : Timer) (v : Nat) :
    (v = 0 → (tm.setInterval v).interval = 1000)
  ∧ (v ≠ 0 → (tm.setInterval v).interval = v) := by
  constructor <;> intro h <;> simp [Timer.setInterval, h, DEFAULT_TIMER_OPTIONS_interval]

/-- Witness for `interval_setter_default_fallback` at concrete inputs. -/
theorem interval_setter_default_fallback_witness :
    (tmBase.setInterval 0).interval = 1000 ∧ (tmBase.setInterval 250).interval = 250 :=
  ⟨(interval_setter_default_fallback tmBase 0).1 rfl,
   (interval_setter_default_fallback tmBase 250).2 (by decide)⟩

/-- C10: `reset()` keeps the two options `interval` and `stopOnCompleted` and
clears everything else: the registry empties, all counters and timestamps
return to 0, and the state becomes Idle (only the reset event is emitted). -/
theorem reset_clears_all_but_options (tm : Timer) :
    tm.reset.1.interval = tm.interval
  ∧ tm.reset.1.stopOnCompleted = tm.stopOnCompleted
  ∧ tm.reset.1.tasks = []
  ∧ tm.reset.1.tickCount = 0
  ∧ tm.reset.1.runCount = 0
  ∧ tm.reset.1.startTime = 0
  ∧ tm.reset.1.stopTime = 0
  ∧ tm.reset.1.completedCount = 0
  ∧ tm.reset.1.state = State.idle
  ∧ tm.reset.2 = [Event.reset] :=
  ⟨rfl, rfl, rfl, rfl, rfl, rfl, rfl, rfl, rfl, rfl⟩

/-- C5: a clock wakeup increments `tickCount` by exactly one, `start()` and
`reset()` reset it to 0, and a `pause()` followed by `resume()` leaves it
unchanged, so it continues from its pre-pause value. -/
theorem tickCount_law (tm : Timer) (now : Nat) :
    (tm.wakeup now).1.tickCount = tm.tickCount + 1
  ∧ (tm.start now).1.tickCount = 0
  ∧ tm.reset.1.tickCount = 0
  ∧ (tm.pause.1.resume).1.tickCount = tm.tickCount := by
  refine ⟨rfl, rfl, rfl, ?_⟩
  unfold Timer.pause Timer.resume Timer._stop Timer._run
  split <;> split <;> simp_all

/-- C6: when the resolved name of an `add` input collides with a registered
task, `_add` throws the naming-conflict error, the timer (and so the
registry) is left unmodified, and no event is emitted. -/
theorem add_duplicate_name_rejected (tm : Timer) (input : AddInput)
    (h : (tm.get (tm.resolvedAddName input)).isSome = true) :
    (tm._add input).error.isSome = true
  ∧ (tm._add input).timer = tm
  ∧ (tm._add input).events = [] := by
  unfold Timer._add
  simp [h]

/-- Witness for `add_duplicate_name_rejected`: adding a second task named foo
to a timer that already holds `taskFoo` fails without effect. -/
theorem add_duplicate_name_rejected_witness :
    (tmFoo.get (tmFoo.resolvedAddName (AddInput.taskInstance taskFoo))).isSome = true
  ∧ (tmFoo._add (AddInput.taskInstance taskFoo)).error.isSome = true
  ∧ (tmFoo._add (AddInput.taskInstance taskFoo)).timer = tmFoo
  ∧ (tmFoo._add (AddInput.taskInstance taskFoo)).events = [] :=
  ⟨by decide, add_duplicate_name_rejected tmFoo (AddInput.taskInstance taskFoo) (by decide)⟩


/-- C7: `remove` throws the not-found error and emits nothing when no task has
the resolved name; on success the found task is deleted from the registry, a
taskRemoved event carrying it is emitted, and `completedCount` is decremented
exactly when the removed task was completed (truncated at 0 by the guard in
the source, which is what the `Nat` subtraction expresses, so the counter can
never go negative). -/
theorem remove_spec (tm : Timer) (arg : RemoveArg) :
    (tm.get arg.resolvedName = none →
       (tm.remove arg).error.isSome = true
     ∧ (tm.remove arg).timer = tm
     ∧ (tm.remove arg).events = [])
  ∧ (∀ t : Task, arg.resolvedName ≠ "" → tm.get arg.resolvedName = some t →
       (tm.remove arg).error = none
     ∧ (tm.remove arg).timer.tasks = tm.tasks.eraseP (fun u => u.name == arg.resolvedName)
     ∧ (t.completed = true →
          (tm.remove arg).timer.completedCount = tm.completedCount - 1)
     ∧ (t.completed = false →
          (tm.remove arg).timer.completedCount = tm.completedCount)
     ∧ (tm.remove arg).events = [Event.taskRemoved t]) := by
  constructor
  · intro hnone
    unfold Timer.remove
    simp only [hnone]
    split <;> simp_all
  · intro t hne hsome
    have hb : (arg.resolvedName == "") = false := by
      simpa using hne
    unfold Timer.remove
    simp only [hb, hsome]
    refine ⟨trivial, trivial, ?_, ?_, trivial⟩
    · intro hc
      rcases Nat.eq_zero_or_pos tm.completedCount with hz | hp
      · simp [hc, hz]
      · simp [hc, hp]
    · intro hc
      simp [hc]

/-- Witness for `remove_spec`: both branches at concrete inputs, removing from
`tmFoo` by an unknown name and by the present name foo. -/
theorem remove_spec_witness :
    ((tmFoo.remove (RemoveArg.byName "nope")).error.isSome = true
     ∧ (tmFoo.remove (RemoveArg.byName "nope")).timer = tmFoo
     ∧ (tmFoo.remove (RemoveArg.byName "nope")).events = [])
  ∧ ((tmFoo.remove (RemoveArg.byName "foo")).error = none
     ∧ (tmFoo.remove (RemoveArg.byName "foo")).timer.tasks
         = tmFoo.tasks.eraseP (fun u => u.name == (RemoveArg.byName "foo").resolvedName)
     ∧ ((taskFoo.completed = true →
          (tmFoo.remove (RemoveArg.byName "foo")).timer.completedCount = tmFoo.completedCount - 1)
     ∧ (taskFoo.completed = false →
          (tmFoo.remove (RemoveArg.byName "foo")).timer.completedCount = tmFoo.completedCount)
     ∧ (tmFoo.remove (RemoveArg.byName "foo")).events = [Event.taskRemoved taskFoo])) :=
  ⟨(remove_spec tmFoo (RemoveArg.byName "nope")).1 (by decide),
   let h := (remove_spec tmFoo (RemoveArg.byName "foo")).2 taskFoo (by decide) (by decide)
   ⟨h.1, h.2.1, h.2.2⟩⟩

/-- C1 (divergence evaluation): in a running timer with `stopOnCompleted` set
and one remaining single-run task, the wakeup in which that task completes
does cancel the clock (`timerOn` is false afterwards, so no further tick can
fire) and `_tick` itself ends in the Stopped state with the stopped event
emitted; but the `setInterval` callback then re-asserts RUNNING, so at the
end of the wakeup the public state is Running, not Stopped. -/
theorem stopOnCompleted_clobbered_state :
    (tmSOC.wakeup 5).1.state = State.running
  ∧ (tmSOC._tick 5).1.state = State.stopped
  ∧ (tmSOC.wakeup 5).1.timerOn = false
  ∧ (tmSOC.wakeup 5).2
      = [Event.task taskT1done, Event.taskCompleted taskT1done,
         Event.completed, Event.stopped, Event.tick] := by
  refine ⟨rfl, by decide, by decide, by decide⟩

/-- C2 (counterexample): a transition into the all-current-tasks-completed
condition caused by `remove` fires no aggregate completed event, neither
during the removal nor on the following tick, because the
`completedCount == taskCount` check only runs inside a task execution
callback; hence the event does not fire exactly once per transition. -/
theorem completed_event_missed_on_remove :
    tmAB.Inv
  ∧ (∃ t ∈ tmAB.tasks, t.completed = false)
  ∧ (tmAB.remove (RemoveArg.byName "b")).error = none
  ∧ (∀ t ∈ (tmAB.remove (RemoveArg.byName "b")).timer.tasks, t.completed = true)
  ∧ 0 < (tmAB.remove (RemoveArg.byName "b")).timer.taskCount
  ∧ (tmAB.remove (RemoveArg.byName "b")).events.count Event.completed = 0
  ∧ (((tmAB.remove (RemoveArg.byName "b")).timer.wakeup 9).2).count Event.completed = 0 := by
  decide

/-- C3 (counterexample): `add` of a prebuilt Task instance that is already
completed (for example a task previously removed after completing) grows the
set of completed registered tasks without touching `completedCount`, so the
bookkeeping invariant does not survive every `add`. -/
theorem inv_broken_by_adding_completed_instance :
    tmBase.Inv
  ∧ (tmBase._add (AddInput.taskInstance taskA)).error = none
  ∧ ¬ (tmBase._add (AddInput.taskInstance taskA)).timer.Inv := by
  decide

/-- C8 (counterexample): the auto-generated name is not the lowest unused
task-N: with a single registered task named foo, task-1 is unused, yet the
generator starts right above `taskCount` and yields task-2. -/
theorem autoname_not_lowest_unused :
    tmFoo._getNewTaskName = "task-2"
  ∧ tmFoo.get "task-1" = none
  ∧ ((tmFoo._add AddInput.callback).timer.get "task-2").isSome = true := by
  decide



/-! Fold lemmas describing one whole tick pass. -/

/-- The pass visits the tasks in order and records each in its updated form. -/
theorem foldl_passStep_visited (now tc n : Nat) (sOC : Bool) :
    ∀ (l : List Task) (st : PassState),
      (l.foldl (passStep now tc n sOC) st).visited
        = st.visited ++ l.map (visitTask now tc) := by
  intro l
  induction l with
  | nil => intro st; simp
  | cons t rest ih =>
      intro st
      simp only [List.foldl_cons, List.map_cons]
      rw [ih, passStep_visited]
      simp

/-- Over a whole pass, `completedCount` grows by the number of tasks that newly
complete. -/
theorem foldl_passStep_completedCount (now tc n : Nat) (sOC : Bool) :
    ∀ (l : List Task) (st : PassState),
      (l.foldl (passStep now tc n sOC) st).completedCount
        = st.completedCount + l.countP (newlyCompleted now tc) := by
  intro l
  induction l with
  | nil => intro st; simp
  | cons t rest ih =>
      intro st
      simp only [List.foldl_cons, List.countP_cons]
      rw [ih, passStep_completedCount]
      omega

/-- Per-task accounting identity for the completed flag across one pass. -/
theorem completed_flag_balance (now tc : Nat) (t : Task) :
    (if (visitTask now tc t).completed = true then 1 else 0)
      = (if t.completed = true then 1 else 0)
        + (if newlyCompleted now tc t = true then 1 else 0) := by
  by_cases hc : t.completed = true
  · rw [visitTask_of_completed now tc t hc]
    simp [newlyCompleted, visitTask_of_completed now tc t hc, hc]
  · have hc2 : t.completed = false := by simpa using hc
    cases hv : (visitTask now tc t).completed <;>
      simp [newlyCompleted, hv, hc2]

/-- Counting completed tasks after the pass equals the count before plus the
newly completed ones. -/
theorem countP_completed_map_visit (now tc : Nat) :
    ∀ l : List Task,
      (l.map (visitTask now tc)).countP (fun t => t.completed)
        = l.countP (fun t => t.completed) + l.countP (newlyCompleted now tc) := by
  intro l
  induction l with
  | nil => simp
  | cons t rest ih =>
      simp only [List.map_cons, List.countP_cons, ih]
      have := completed_flag_balance now tc t
      omega

/-- A full `_tick` pass keeps the bookkeeping invariant. -/
theorem tick_preserves_inv (tm : Timer) (now : Nat) (h : tm.Inv) :
    ((tm._tick now).1).Inv := by
  unfold Timer.Inv at h ⊢
  show (tm.tasks.foldl (passStep now tm.tickCount tm.taskCount tm.stopOnCompleted)
          { visited := [], runCount := tm.runCount, completedCount := tm.completedCount,
            state := tm.state, timerOn := tm.timerOn, stopTime := tm.stopTime,
            events := [] }).completedCount
      = (tm.tasks.foldl (passStep now tm.tickCount tm.taskCount tm.stopOnCompleted)
          { visited := [], runCount := tm.runCount, completedCount := tm.completedCount,
            state := tm.state, timerOn := tm.timerOn, stopTime := tm.stopTime,
            events := [] }).visited.countP (fun t => t.completed)
  rw [foldl_passStep_visited, foldl_passStep_completedCount]
  simp only [List.nil_append]
  rw [countP_completed_map_visit]
  omega

/-- Count of completed tasks after erasing the one found by a predicate. -/
theorem countP_eraseP_of_find (p q : Task → Bool) :
    ∀ (l : List Task) (t : Task), l.find? p = some t →
      l.countP q = (l.eraseP p).countP q + (if q t then 1 else 0) := by
  intro l
  induction l with
  | nil => intro t hf; simp at hf
  | cons a rest ih =>
      intro t hf
      by_cases hp : p a = true
      · rw [List.find?_cons_of_pos rest hp] at hf
        injection hf with hf
        subst hf
        rw [List.eraseP_cons_of_pos hp, List.countP_cons]
      · have hp2 : ¬ p a = true := hp
        rw [List.find?_cons_of_neg rest hp2] at hf
        rw [List.eraseP_cons_of_neg hp2]
        simp only [List.countP_cons]
        rw [ih t hf]
        omega

/-- C3 (amended): the bookkeeping equality `completedCount = number of
completed registered tasks` is preserved by `start`, `pause`, `resume`,
`stop`, `reset`, `remove`, every `add` of a bare callback or of an options
record, every `add` of a not-yet-completed Task instance, and every full
tick pass (clock wakeup).  Only `add` of an already-completed Task instance
can break it (see the counterexample). -/
theorem inv_preserved_by_operations (tm : Timer) (h : tm.Inv) :
    (∀ now, ((tm.start now).1).Inv)
  ∧ (tm.pause.1).Inv
  ∧ (tm.resume.1).Inv
  ∧ (∀ now, ((tm.stop now).1).Inv)
  ∧ (tm.reset.1).Inv
  ∧ (∀ arg, ((tm.remove arg).timer).Inv)
  ∧ (∀ o : TaskOptions, ((tm._add (AddInput.options o)).timer).Inv)
  ∧ ((tm._add AddInput.callback).timer).Inv
  ∧ (∀ t : Task, t.completed = false → ((tm._add (AddInput.taskInstance t)).timer).Inv)
  ∧ (∀ now, ((tm.wakeup now).1).Inv) := by
  refine ⟨?_, ?_, ?_, ?_, ?_, ?_, ?_, ?_, ?_, ?_⟩
  · intro now
    simpa [Timer.start, Timer._stop, Timer._run, Timer.Inv] using h
  · unfold Timer.pause
    split <;> simpa [Timer._stop, Timer.Inv] using h
  · unfold Timer.resume
    split <;> simpa [Timer._run, Timer.Inv] using h
  · intro now
    unfold Timer.stop
    split <;> simpa [Timer._stop, Timer.Inv] using h
  · simp [Timer.reset, Timer._reset, Timer.Inv]
  · intro arg
    unfold Timer.remove
    by_cases hname : (arg.resolvedName == "") = true
    · simp only [hname]
      exact h
    · have hname2 : (arg.resolvedName == "") = false := by simpa using hname
      rcases hfind : tm.get arg.resolvedName with _ | t
      · simp only [hname2, hfind]
        exact h
      · simp only [hname2, hfind]
        unfold Timer.Inv at h ⊢
        simp only
        have hbal := countP_eraseP_of_find (fun u => u.name == arg.resolvedName)
          (fun u => u.completed) tm.tasks t hfind
        by_cases hc : t.completed = true
        · have hone : 0 < tm.tasks.countP (fun u => u.completed) := by
            rw [List.countP_pos_iff]
            exact ⟨t, List.mem_of_find?_eq_some hfind, hc⟩
          have hguard : (t.completed && decide (0 < tm.completedCount)) = true := by
            rw [hc, h]
            simp [hone]
          simp only [hguard, if_true]
          simp only [hc] at hbal
          rw [if_pos trivial] at hbal
          omega
        · have hc2 : t.completed = false := by simpa using hc
          have hguard : (t.completed && decide (0 < tm.completedCount)) = false := by
            simp [hc2]
          simp only [hguard, Bool.false_eq_true, if_false]
          simp only [hc2, Bool.false_eq_true, if_false] at hbal
          omega
  · intro o
    unfold Timer.Inv at h ⊢
    by_cases hdup : (tm.get (tm.resolvedAddName (AddInput.options o))).isSome = true
    · simp [Timer._add, hdup, h]
    · simp [Timer._add, hdup, Task.ofOptions, h]
  · unfold Timer.Inv at h ⊢
    by_cases hdup : (tm.get (tm.resolvedAddName AddInput.callback)).isSome = true
    · simp [Timer._add, hdup, h]
    · simp [Timer._add, hdup, Task.ofOptions, h]
  · intro t hc
    unfold Timer.Inv at h ⊢
    by_cases hdup : (tm.get (tm.resolvedAddName (AddInput.taskInstance t))).isSome = true
    · simp [Timer._add, hdup, h]
    · simp [Timer._add, hdup, hc, h]
  · intro now
    have := tick_preserves_inv tm now h
    unfold Timer.Inv at this ⊢
    simpa [Timer.wakeup] using this

/-- Witness for `inv_preserved_by_operations` at the concrete timer `tmAB`. -/
theorem inv_preserved_by_operations_witness :
    tmAB.Inv
  ∧ ((tmAB.remove (RemoveArg.byName "a")).timer).Inv
  ∧ (∀ now, ((tmAB.wakeup now).1).Inv) :=
  ⟨by decide,
   (inv_preserved_by_operations tmAB (by decide)).2.2.2.2.2.1 (RemoveArg.byName "a"),
   (inv_preserved_by_operations tmAB (by decide)).2.2.2.2.2.2.2.2.2⟩



/-- The registry after `_tick` is the pointwise image of the registry before
it: each task is updated independently of the others. -/
theorem tick_tasks (tm : Timer) (now : Nat) :
    (tm._tick now).1.tasks = tm.tasks.map (visitTask now tm.tickCount) := by
  show (tm.tasks.foldl (passStep now tm.tickCount tm.taskCount tm.stopOnCompleted)
          { visited := [], runCount := tm.runCount, completedCount := tm.completedCount,
            state := tm.state, timerOn := tm.timerOn, stopTime := tm.stopTime,
            events := [] }).visited = tm.tasks.map (visitTask now tm.tickCount)
  rw [foldl_passStep_visited]
  simp

/-- C4: a registered task (at position i, with a positive `tickInterval` as
the data model requires) is executed by a tick exactly when it is enabled,
not completed, and the tick count is a multiple of its `tickInterval`, all
evaluated at the start of that tick: the registry slot afterwards holds the
executed update exactly under that condition and is untouched otherwise (and
execution always changes the task, so the two cases are distinguishable). -/
theorem task_executes_iff_eligible (tm : Timer) (now i : Nat)
    (hi : i < tm.tasks.length)
    (hti : 0 < (tm.tasks.getD i default).tickInterval) :
    ((tm._tick now).1.tasks.getD i default
      = if ((tm.tasks.getD i default).enabled = true
            ∧ (tm.tasks.getD i default).completed = false
            ∧ tm.tickCount % (tm.tasks.getD i default).tickInterval = 0)
        then (tm.tasks.getD i default).execute now
        else tm.tasks.getD i default)
  ∧ (tm.tasks.getD i default).execute now ≠ tm.tasks.getD i default := by
  refine ⟨?_, Task.execute_ne now _⟩
  rw [tick_tasks]
  simp only [List.getD_eq_getElem?_getD, List.getElem?_map,
    List.getElem?_eq_getElem hi] at hti ⊢
  simp only [Option.map_some', Option.getD_some] at hti ⊢
  have hne : (tm.tasks[i].tickInterval != 0) = true := by
    simp only [bne_iff_ne, ne_eq]
    omega
  by_cases h1 : tm.tasks[i].enabled = true <;>
    by_cases h2 : tm.tasks[i].completed = false <;>
      by_cases h3 : tm.tickCount % tm.tasks[i].tickInterval = 0 <;>
        simp [visitTask, tickAligned, Task.runnable, h1, h2, h3, hne]

/-- Witness for `task_executes_iff_eligible` on the concrete timer `tmSOC`. -/
theorem task_executes_iff_eligible_witness :
    0 < tmSOC.tasks.length
  ∧ 0 < (tmSOC.tasks.getD 0 default).tickInterval
  ∧ ((tmSOC._tick 5).1.tasks.getD 0 default
      = if ((tmSOC.tasks.getD 0 default).enabled = true
            ∧ (tmSOC.tasks.getD 0 default).completed = false
            ∧ tmSOC.tickCount % (tmSOC.tasks.getD 0 default).tickInterval = 0)
        then (tmSOC.tasks.getD 0 default).execute 5
        else tmSOC.tasks.getD 0 default)
  ∧ (tmSOC.tasks.getD 0 default).execute 5 ≠ tmSOC.tasks.getD 0 default :=
  ⟨by decide, by decide,
   (task_executes_iff_eligible tmSOC 5 0 (by decide) (by decide)).1,
   (task_executes_iff_eligible tmSOC 5 0 (by decide) (by decide)).2⟩



/-- One pass step emits the aggregate completed event exactly when it raises
`completedCount` to the live task count `n`, provided the counter was still
below `n` whenever the task actually runs. -/
theorem passStep_count_completed (now tc n : Nat) (sOC : Bool) (st : PassState) (t : Task)
    (hcc : (tickAligned tc t.tickInterval && t.runnable) = true → st.completedCount < n) :
    (passStep now tc n sOC st t).events.count Event.completed
      = st.events.count Event.completed
        + if ((passStep now tc n sOC st t).completedCount = n
              ∧ ¬ st.completedCount = n) then 1 else 0 := by
  unfold passStep PassState.applyStop
  by_cases h : (tickAligned tc t.tickInterval && t.runnable) = true
  · have hlt := hcc h
    simp only [h, if_true]
    repeat' split
    all_goals
      simp_all [List.count_append, List.count_cons]
  · have hno : ¬ ((st.completedCount = n) ∧ ¬ st.completedCount = n) :=
      fun hx => hx.2 hx.1
    simp [h, hno]

/-- The live `completedCount` can never exceed the task count during a pass
started in a consistent state. -/
theorem foldl_passStep_cc_le (now tc n : Nat) (sOC : Bool) (l : List Task) (st : PassState)
    (H2 : st.visited.length + l.length = n)
    (H1 : st.completedCount
            = st.visited.countP (fun u => u.completed)
              + l.countP (fun u => u.completed)) :
    (l.foldl (passStep now tc n sOC) st).completedCount ≤ n := by
  rw [foldl_passStep_completedCount]
  have hv : st.visited.countP (fun u => u.completed) ≤ st.visited.length :=
    List.countP_le_length _
  have hm := countP_completed_map_visit now tc l
  have hlen : (l.map (visitTask now tc)).countP (fun u => u.completed)
      ≤ (l.map (visitTask now tc)).length := List.countP_le_length _
  simp only [List.length_map] at hlen
  omega

/-- Master counting lemma for one tick pass: the whole pass emits the
aggregate completed event exactly once if it ends with `completedCount` equal
to the task count `n` without having started there, and not at all
otherwise. -/
theorem foldl_passStep_count_completed (now tc n : Nat) (sOC : Bool) :
    ∀ (l : List Task) (st : PassState),
      st.visited.length + l.length = n →
      st.completedCount
        = st.visited.countP (fun u => u.completed) + l.countP (fun u => u.completed) →
      (l.foldl (passStep now tc n sOC) st).events.count Event.completed
        = st.events.count Event.completed
          + if ((l.foldl (passStep now tc n sOC) st).completedCount = n
                ∧ ¬ st.completedCount = n) then 1 else 0 := by
  intro l
  induction l with
  | nil =>
      intro st H2 H1
      have hno : ¬ ((st.completedCount = n) ∧ ¬ st.completedCount = n) :=
        fun hx => hx.2 hx.1
      simp [hno]
  | cons t rest ih =>
      intro st H2 H1
      simp only [List.foldl_cons]
      have hv1 : (passStep now tc n sOC st t).visited
          = st.visited ++ [visitTask now tc t] :=
        passStep_visited now tc n sOC st t
      have hc1 : (passStep now tc n sOC st t).completedCount
          = st.completedCount + (if newlyCompleted now tc t then 1 else 0) :=
        passStep_completedCount now tc n sOC st t
      have H2l : st.visited.length + (t :: rest).length = n := H2
      simp only [List.length_cons] at H2l
      have H2n : (passStep now tc n sOC st t).visited.length + rest.length = n := by
        rw [hv1]
        simp only [List.length_append, List.length_cons, List.length_nil]
        omega
      have hbal := completed_flag_balance now tc t
      have H1n : (passStep now tc n sOC st t).completedCount
          = (passStep now tc n sOC st t).visited.countP (fun u => u.completed)
            + rest.countP (fun u => u.completed) := by
        rw [hv1, hc1]
        simp only [List.countP_cons] at H1
        simp only [List.countP_append, List.countP_cons, List.countP_nil]
        omega
      have hstep : (passStep now tc n sOC st t).events.count Event.completed
          = st.events.count Event.completed
            + if ((passStep now tc n sOC st t).completedCount = n
                  ∧ ¬ st.completedCount = n) then 1 else 0 := by
        apply passStep_count_completed
        intro hrun
        have hncomp : t.completed = false := by
          rcases Bool.and_eq_true .. |>.mp hrun with ⟨-, hr⟩
          unfold Task.runnable at hr
          rcases Bool.and_eq_true .. |>.mp hr with ⟨-, hb⟩
          simpa using hb
        have h1 : st.visited.countP (fun u => u.completed) ≤ st.visited.length :=
          List.countP_le_length _
        have h2 : rest.countP (fun u => u.completed) ≤ rest.length :=
          List.countP_le_length _
        simp only [List.countP_cons, hncomp, Bool.false_eq_true, if_false] at H1
        omega
      have hmono1 : st.completedCount ≤ (passStep now tc n sOC st t).completedCount := by
        rw [hc1]
        omega
      have hccle : (rest.foldl (passStep now tc n sOC) (passStep now tc n sOC st t)).completedCount ≤ n :=
        foldl_passStep_cc_le now tc n sOC rest (passStep now tc n sOC st t) H2n H1n
      have hmono2 : (passStep now tc n sOC st t).completedCount
          ≤ (rest.foldl (passStep now tc n sOC) (passStep now tc n sOC st t)).completedCount := by
        rw [foldl_passStep_completedCount]
        omega
      rw [ih (passStep now tc n sOC st t) H2n H1n, hstep]
      by_cases ha : st.completedCount = n <;>
        by_cases hb : (passStep now tc n sOC st t).completedCount = n <;>
          by_cases hf : (rest.foldl (passStep now tc n sOC) (passStep now tc n sOC st t)).completedCount = n <;>
            simp [ha, hb, hf] <;> omega



/-- Under the bookkeeping invariant the aggregate condition `allDoneB` is the
same as the counter test performed by `_tick`. -/
theorem allDoneB_iff_cc (tm : Timer) (h : tm.Inv) :
    allDoneB tm = true ↔ (tm.completedCount = tm.taskCount ∧ tm.taskCount ≠ 0) := by
  unfold allDoneB
  unfold Timer.Inv at h
  rw [Bool.and_eq_true, bne_iff_ne, List.all_eq_true]
  constructor
  · rintro ⟨hn, hall⟩
    refine ⟨?_, hn⟩
    rw [h]
    exact List.countP_eq_length.mpr hall
  · rintro ⟨hcc, hn⟩
    refine ⟨hn, ?_⟩
    rw [h] at hcc
    exact List.countP_eq_length.mp hcc

/-- The tick pass leaves the number of registered tasks unchanged. -/
theorem tick_taskCount (tm : Timer) (now : Nat) :
    (tm._tick now).1.taskCount = tm.taskCount := by
  unfold Timer.taskCount
  rw [tick_tasks]
  exact List.length_map ..

/-- Counter-level statement of the aggregate event count over one `_tick`. -/
theorem tick_count_completed (tm : Timer) (now : Nat) (h : tm.Inv) :
    (tm._tick now).2.count Event.completed
      = if ((tm._tick now).1.completedCount = tm.taskCount
            ∧ ¬ tm.completedCount = tm.taskCount) then 1 else 0 := by
  have hmain := foldl_passStep_count_completed now tm.tickCount tm.taskCount
      tm.stopOnCompleted tm.tasks
      { visited := [], runCount := tm.runCount, completedCount := tm.completedCount,
        state := tm.state, timerOn := tm.timerOn, stopTime := tm.stopTime, events := [] }
      (by simp [Timer.taskCount])
      (by simpa [Timer.Inv] using h)
  show ((tm.tasks.foldl (passStep now tm.tickCount tm.taskCount tm.stopOnCompleted)
        { visited := [], runCount := tm.runCount, completedCount := tm.completedCount,
          state := tm.state, timerOn := tm.timerOn, stopTime := tm.stopTime,
          events := [] }).events ++ [Event.tick]).count Event.completed = _
  rw [List.count_append]
  simp only at hmain
  rw [hmain]
  simp only [List.count_cons, List.count_nil]
  norm_num
  rfl

/-- C2 (amended): during one `_tick` the aggregate completed event is emitted
exactly once when the pass transitions the registry into the
all-current-tasks-completed condition (which requires a nonzero task count),
and zero times otherwise; in particular it is never emitted when no task is
registered, and `remove`/`add` never emit it, so a transition into the
condition effected by `remove` fires no event. -/
theorem completed_event_once_per_tick_transition (tm : Timer) (now : Nat) (h : tm.Inv) :
    ((tm._tick now).2.count Event.completed
      = if (allDoneB (tm._tick now).1 && !allDoneB tm) = true then 1 else 0)
  ∧ (tm.tasks = [] → (tm._tick now).2.count Event.completed = 0)
  ∧ (∀ arg, (tm.remove arg).events.count Event.completed = 0)
  ∧ (∀ input, (tm._add input).events.count Event.completed = 0) := by
  have htick := tick_preserves_inv tm now h
  have hiff1 := allDoneB_iff_cc (tm._tick now).1 htick
  have hiff2 := allDoneB_iff_cc tm h
  have htc := tick_taskCount tm now
  rw [htc] at hiff1
  have hcount := tick_count_completed tm now h
  refine ⟨?_, ?_, ?_, ?_⟩
  · rw [hcount]
    have hcond : ((tm._tick now).1.completedCount = tm.taskCount
          ∧ ¬ tm.completedCount = tm.taskCount)
        ↔ ((allDoneB (tm._tick now).1 && !allDoneB tm) = true) := by
      rw [Bool.and_eq_true, Bool.not_eq_true']
      constructor
      · rintro ⟨hf, hcc⟩
        have hn0 : tm.taskCount ≠ 0 := by
          intro h0
          apply hcc
          have hnil : tm.tasks = [] := by
            have := h0
            unfold Timer.taskCount at this
            exact List.length_eq_zero.mp this
          unfold Timer.Inv at h
          rw [h, hnil, h0]
          rfl
        refine ⟨hiff1.mpr ⟨hf, hn0⟩, ?_⟩
        cases hBv : allDoneB tm with
        | false => rfl
        | true => exact absurd (hiff2.mp hBv).1 hcc
      · rintro ⟨hA, hB⟩
        have hA2 := hiff1.mp hA
        refine ⟨hA2.1, ?_⟩
        intro hccn
        have : allDoneB tm = true := hiff2.mpr ⟨hccn, hA2.2⟩
        rw [this] at hB
        cases hB
    rw [if_congr hcond rfl rfl]
  · intro hnil
    rw [hcount]
    have hcc0 : tm.completedCount = 0 := by
      unfold Timer.Inv at h
      rw [h, hnil]
      rfl
    have htc0 : tm.taskCount = 0 := by
      unfold Timer.taskCount
      rw [hnil]
      rfl
    have hno : ¬ ((tm._tick now).1.completedCount = tm.taskCount
        ∧ ¬ tm.completedCount = tm.taskCount) := by
      rintro ⟨-, hcc⟩
      exact hcc (by rw [hcc0, htc0])
    rw [if_neg hno]
  · intro arg
    unfold Timer.remove
    by_cases hname : (arg.resolvedName == "") = true
    · simp [hname]
    · have hname2 : (arg.resolvedName == "") = false := by simpa using hname
      rcases hfind : tm.get arg.resolvedName with _ | t <;>
        simp [hname2, hfind, List.count_cons]
  · intro input
    unfold Timer._add
    by_cases hdup : (tm.get (tm.resolvedAddName input)).isSome = true <;>
      simp [hdup, List.count_cons]

/-- Witness for `completed_event_once_per_tick_transition` at the concrete
running timer `tmAB` (one completed task, one uncompleted unbounded task):
its invariant holds and the next tick fires no aggregate completed event. -/
theorem completed_event_once_per_tick_transition_witness :
    tmAB.Inv
  ∧ ((tmAB._tick 7).2.count Event.completed
      = if (allDoneB (tmAB._tick 7).1 && !allDoneB tmAB) = true then 1 else 0) :=
  ⟨by decide, (completed_event_once_per_tick_transition tmAB 7 (by decide)).1⟩



/-- Scanning behavior of the name generator: whenever some candidate within
the scanned window is free, the generator returns the first free candidate
strictly above its starting number. -/
theorem getNewTaskNameAux_spec (tm : Timer) :
    ∀ (fuel num : Nat),
      (∃ m, num < m ∧ m ≤ num + fuel ∧ tm.get ("task-" ++ Nat.repr m) = none) →
      ∃ N, num < N
        ∧ getNewTaskNameAux tm fuel num = "task-" ++ Nat.repr N
        ∧ tm.get ("task-" ++ Nat.repr N) = none
        ∧ ∀ m, num < m → m < N → (tm.get ("task-" ++ Nat.repr m)).isSome = true := by
  intro fuel
  induction fuel with
  | zero =>
      intro num hex
      exact absurd hex (by rintro ⟨m, h1, h2, -⟩; omega)
  | succ fuel ih =>
      intro num hex
      by_cases hc : (tm.get ("task-" ++ Nat.repr (num + 1))).isSome = true
      · have hex2 : ∃ m, num + 1 < m ∧ m ≤ num + 1 + fuel
            ∧ tm.get ("task-" ++ Nat.repr m) = none := by
          obtain ⟨m, h1, h2, h3⟩ := hex
          refine ⟨m, ?_, by omega, h3⟩
          rcases Nat.lt_or_ge (num + 1) m with hlt | hge
          · exact hlt
          · exfalso
            have hm : m = num + 1 := by omega
            rw [← hm, h3] at hc
            simp at hc
        obtain ⟨N, hN1, hN2, hN3, hN4⟩ := ih (num + 1) hex2
        refine ⟨N, by omega, ?_, hN3, ?_⟩
        · unfold getNewTaskNameAux
          simp only [hc, if_true]
          exact hN2
        · intro m hm1 hm2
          by_cases hme : m = num + 1
          · rw [hme]
            exact hc
          · exact hN4 m (by omega) hm2
      · refine ⟨num + 1, by omega, ?_, ?_, ?_⟩
        · unfold getNewTaskNameAux
          simp [hc]
        · exact Option.not_isSome_iff_eq_none.mp hc
        · intro m hm1 hm2
          omega

/-- C8 (amended): when some candidate in the scanned window is free (which the
pigeonhole argument guarantees, the window holding one more candidate than
there are registered tasks), the auto-generated name is `task-N` for the
least N strictly greater than the current task count whose name is unused;
in particular the result is unused, but it is not in general the lowest
unused task-N pattern name. -/
theorem autoname_least_unused_above_taskCount (tm : Timer)
    (h : ∃ m, tm.taskCount < m ∧ m ≤ 2 * tm.taskCount + 1
         ∧ tm.get ("task-" ++ Nat.repr m) = none) :
    ∃ N, tm.taskCount < N
      ∧ tm._getNewTaskName = "task-" ++ Nat.repr N
      ∧ tm.get ("task-" ++ Nat.repr N) = none
      ∧ ∀ m, tm.taskCount < m → m < N → (tm.get ("task-" ++ Nat.repr m)).isSome = true := by
  apply getNewTaskNameAux_spec tm (tm.taskCount + 1) tm.taskCount
  obtain ⟨m, h1, h2, h3⟩ := h
  exact ⟨m, h1, by omega, h3⟩

/-- Witness for `autoname_least_unused_above_taskCount` at the concrete timer
`tmFoo` (one task named foo, so the window is 2..3 and task-2 is free). -/
theorem autoname_least_unused_above_taskCount_witness :
    (∃ m, tmFoo.taskCount < m ∧ m ≤ 2 * tmFoo.taskCount + 1
       ∧ tmFoo.get ("task-" ++ Nat.repr m) = none)
  ∧ (∃ N, tmFoo.taskCount < N
       ∧ tmFoo._getNewTaskName = "task-" ++ Nat.repr N
       ∧ tmFoo.get ("task-" ++ Nat.repr N) = none
       ∧ ∀ m, tmFoo.taskCount < m → m < N → (tmFoo.get ("task-" ++ Nat.repr m)).isSome = true) :=
  ⟨⟨2, by decide, by decide, by decide⟩,
   autoname_least_unused_above_taskCount tmFoo ⟨2, by decide, by decide, by decide⟩⟩


end TaskTimer
